import Mathlib

/-!
# Jamvox USB audio driver (`src/jamvox.c`): a shallow embedding

The driver state `struct jamvox_device` becomes a Lean structure, every PCM
callback, completion handler and lifecycle function becomes a pure function
that returns the new device state together with the list of kernel calls it
made, in program order.  Pointers are natural numbers with `0` for `NULL`,
C `int`s are `Int`.

The kernel itself is not part of the driver.  Whatever a kernel function
returns to the driver is a parameter of the embedding (`submit_ret`, the
fields of `Faults`), and what the kernel keeps track of (the transfers in
flight, the live allocations) is a small bookkeeping model that only
interprets the calls the driver makes.
-/

namespace Jamvox

/-! ## Constants -/

def JAMVOX_MAX_CHANNELS : Nat := 2
def JAMVOX_SAMPLE_RATE : Nat := 44100
def JAMVOX_BUFFER_SIZE : Nat := 4096

def ENOMEM : Int := 12
def EINVAL : Int := 22

def SNDRV_PCM_TRIGGER_STOP : Int := 0
def SNDRV_PCM_TRIGGER_START : Int := 1

/-- The two values of `substream->stream`. -/
inductive snd_pcm_stream
  | SNDRV_PCM_STREAM_PLAYBACK
  | SNDRV_PCM_STREAM_CAPTURE
  deriving DecidableEq, Repr

open snd_pcm_stream

/-! ## Data model -/

/-- The numeric fields of `struct snd_pcm_hardware` (the `info`, `formats` and
`rates` bit masks are left out: no callback reads them). -/
structure snd_pcm_hardware where
  rate_min : Nat
  rate_max : Nat
  channels_min : Nat
  channels_max : Nat
  buffer_bytes_max : Nat
  period_bytes_min : Nat
  period_bytes_max : Nat
  periods_min : Nat
  periods_max : Nat
  deriving DecidableEq, Repr

def jamvox_pcm_hw : snd_pcm_hardware :=
  { rate_min := 44100
    rate_max := 48000
    channels_min := 1
    channels_max := JAMVOX_MAX_CHANNELS
    buffer_bytes_max := JAMVOX_BUFFER_SIZE * 4
    period_bytes_min := 64
    period_bytes_max := JAMVOX_BUFFER_SIZE
    periods_min := 2
    periods_max := 32 }

/-- A `struct snd_pcm_substream *` handed to a callback: its address and its
direction. -/
structure snd_pcm_substream where
  addr : Nat
  stream : snd_pcm_stream
  deriving DecidableEq, Repr

/-- The fields of `struct urb` a completion handler can read: the address of
the URB, its completion status and the number of bytes moved. -/
structure urb where
  addr : Nat
  status : Int
  actual_length : Nat
  deriving DecidableEq, Repr

/-- The driver state, `struct jamvox_device`. -/
structure jamvox_device where
  udev : Nat
  card : Nat
  pcm : Nat
  intf : Nat
  playback_substream : Nat
  capture_substream : Nat
  playback_urb : Nat
  capture_urb : Nat
  playback_buffer : Nat
  capture_buffer : Nat
  playback_dma : Nat
  capture_dma : Nat
  playback_running : Int
  capture_running : Int
  deriving DecidableEq, Repr

/-- A call from the driver into the kernel.  `usb_submit_urb` carries the value
the kernel returned. -/
inductive Call
  | usb_submit_urb (u : Nat) (ret : Int)
  | usb_kill_urb (u : Nat)
  | usb_free_urb (u : Nat)
  | usb_free_coherent (buf : Nat)
  | snd_pcm_period_elapsed (substream : Nat)
  | snd_card_free (card : Nat)
  | kfree (p : Nat)
  deriving DecidableEq, Repr

/-! ## Per-direction views of the device state -/

def running (dev : jamvox_device) : snd_pcm_stream → Int
  | SNDRV_PCM_STREAM_PLAYBACK => dev.playback_running
  | SNDRV_PCM_STREAM_CAPTURE => dev.capture_running

def bound_substream (dev : jamvox_device) : snd_pcm_stream → Nat
  | SNDRV_PCM_STREAM_PLAYBACK => dev.playback_substream
  | SNDRV_PCM_STREAM_CAPTURE => dev.capture_substream

def urb_of (dev : jamvox_device) : snd_pcm_stream → Nat
  | SNDRV_PCM_STREAM_PLAYBACK => dev.playback_urb
  | SNDRV_PCM_STREAM_CAPTURE => dev.capture_urb

def other : snd_pcm_stream → snd_pcm_stream
  | SNDRV_PCM_STREAM_PLAYBACK => SNDRV_PCM_STREAM_CAPTURE
  | SNDRV_PCM_STREAM_CAPTURE => SNDRV_PCM_STREAM_PLAYBACK

/-! ## PCM callbacks -/

/-- `jamvox_pcm_open`: returns the status, the new device state and the value
stored into `substream->runtime->hw`. -/
def jamvox_pcm_open (dev : jamvox_device) (substream : snd_pcm_substream) :
    Int × jamvox_device × snd_pcm_hardware :=
  if substream.stream = SNDRV_PCM_STREAM_PLAYBACK then
    (0, { dev with playback_substream := substream.addr }, jamvox_pcm_hw)
  else
    (0, { dev with capture_substream := substream.addr }, jamvox_pcm_hw)

/-- `jamvox_pcm_close`: returns the status, the new device state and the kernel
calls made. -/
def jamvox_pcm_close (dev : jamvox_device) (substream : snd_pcm_substream) :
    Int × jamvox_device × List Call :=
  if substream.stream = SNDRV_PCM_STREAM_PLAYBACK then
    (0, { dev with playback_substream := 0 }, [])
  else
    (0, { dev with capture_substream := 0 }, [])

def jamvox_pcm_hw_params (dev : jamvox_device) (_substream : snd_pcm_substream) :
    Int × jamvox_device :=
  (0, dev)

def jamvox_pcm_hw_free (dev : jamvox_device) (_substream : snd_pcm_substream) :
    Int × jamvox_device :=
  (0, dev)

def jamvox_pcm_prepare (dev : jamvox_device) (_substream : snd_pcm_substream) :
    Int × jamvox_device :=
  (0, dev)

/-- `jamvox_playback_complete`; `dev` is `urb->context`, `submit_ret` is what
`usb_submit_urb` returns if the handler calls it (the handler drops it). -/
def jamvox_playback_complete (submit_ret : Int) (dev : jamvox_device) (u : urb) :
    jamvox_device × List Call :=
  if dev.playback_running = 0 then (dev, [])
  else if u.status = 0 then
    (dev,
      (if dev.playback_substream ≠ 0 then
          [Call.snd_pcm_period_elapsed dev.playback_substream]
        else []) ++ [Call.usb_submit_urb u.addr submit_ret])
  else (dev, [])

/-- `jamvox_capture_complete`, as `jamvox_playback_complete`. -/
def jamvox_capture_complete (submit_ret : Int) (dev : jamvox_device) (u : urb) :
    jamvox_device × List Call :=
  if dev.capture_running = 0 then (dev, [])
  else if u.status = 0 then
    (dev,
      (if dev.capture_substream ≠ 0 then
          [Call.snd_pcm_period_elapsed dev.capture_substream]
        else []) ++ [Call.usb_submit_urb u.addr submit_ret])
  else (dev, [])

/-- `jamvox_pcm_trigger`; `submit_ret` is what `usb_submit_urb` returns. -/
def jamvox_pcm_trigger (submit_ret : Int) (dev : jamvox_device)
    (substream : snd_pcm_substream) (cmd : Int) : Int × jamvox_device × List Call :=
  let is_playback := decide (substream.stream = SNDRV_PCM_STREAM_PLAYBACK)
  if cmd = SNDRV_PCM_TRIGGER_START then
    if is_playback then
      (submit_ret, { dev with playback_running := 1 },
        [Call.usb_submit_urb dev.playback_urb submit_ret])
    else
      (submit_ret, { dev with capture_running := 1 },
        [Call.usb_submit_urb dev.capture_urb submit_ret])
  else if cmd = SNDRV_PCM_TRIGGER_STOP then
    if is_playback then
      (0, { dev with playback_running := 0 }, [Call.usb_kill_urb dev.playback_urb])
    else
      (0, { dev with capture_running := 0 }, [Call.usb_kill_urb dev.capture_urb])
  else (-EINVAL, dev, [])

/-- `jamvox_pcm_pointer`. -/
def jamvox_pcm_pointer (_dev : jamvox_device) (_substream : snd_pcm_substream) : Nat :=
  0

/-- The completion handler installed on the URB of a direction
(`usb_fill_bulk_urb` in `jamvox_init_audio`). -/
def complete_handler (d : snd_pcm_stream) (submit_ret : Int) (dev : jamvox_device)
    (u : urb) : jamvox_device × List Call :=
  match d with
  | SNDRV_PCM_STREAM_PLAYBACK => jamvox_playback_complete submit_ret dev u
  | SNDRV_PCM_STREAM_CAPTURE => jamvox_capture_complete submit_ret dev u

/-! ## The USB core's view: transfers in flight

`inflight` lists the URBs that were submitted and have not completed yet, one
entry per accepted submission. -/

/-- The effect of one driver call on the transfers in flight: an accepted
submission (return value `0`) adds the URB, `usb_kill_urb` cancels every
pending transfer of the URB and waits for it.  (The handler of a cancelled
transfer sees a nonzero status and makes no call, see `jamvox_playback_complete`.) -/
def usb_core (inflight : List Nat) : Call → List Nat
  | Call.usb_submit_urb u ret => if ret = 0 then u :: inflight else inflight
  | Call.usb_kill_urb u => inflight.filter (fun v => v ≠ u)
  | _ => inflight

def usb_core_calls (inflight : List Nat) (calls : List Call) : List Nat :=
  calls.foldl usb_core inflight

/-- No call in `calls` is a submission the kernel accepted for a URB that was
in flight at the time of the call. -/
def rejects_active : List Nat → List Call → Bool
  | _, [] => true
  | inflight, c :: cs =>
    (match c with
      | Call.usb_submit_urb u ret => !(decide (ret = 0) && decide (u ∈ inflight))
      | _ => true)
    && rejects_active (usb_core inflight c) cs

/-- What can happen to a device: a PCM callback invoked by the audio subsystem,
or the completion of the URB of one direction. -/
inductive Event
  | pcm_open (substream : snd_pcm_substream)
  | pcm_close (substream : snd_pcm_substream)
  | pcm_hw_params (substream : snd_pcm_substream)
  | pcm_hw_free (substream : snd_pcm_substream)
  | pcm_prepare (substream : snd_pcm_substream)
  | pcm_trigger (substream : snd_pcm_substream) (cmd : Int) (submit_ret : Int)
  | completion (d : snd_pcm_stream) (status : Int) (actual_length : Nat) (submit_ret : Int)
  deriving DecidableEq, Repr

/-- The device together with the USB core's bookkeeping and the value returned
by the last PCM callback. -/
structure Sys where
  dev : jamvox_device
  inflight : List Nat
  ret : Int
  deriving DecidableEq, Repr

/-- The device state after the event and the kernel calls the driver made
while handling it. -/
def Event.run (dev : jamvox_device) : Event → Int × jamvox_device × List Call
  | Event.pcm_open ss => ((jamvox_pcm_open dev ss).1, (jamvox_pcm_open dev ss).2.1, [])
  | Event.pcm_close ss => jamvox_pcm_close dev ss
  | Event.pcm_hw_params ss =>
    ((jamvox_pcm_hw_params dev ss).1, (jamvox_pcm_hw_params dev ss).2, [])
  | Event.pcm_hw_free ss => ((jamvox_pcm_hw_free dev ss).1, (jamvox_pcm_hw_free dev ss).2, [])
  | Event.pcm_prepare ss => ((jamvox_pcm_prepare dev ss).1, (jamvox_pcm_prepare dev ss).2, [])
  | Event.pcm_trigger ss cmd r => jamvox_pcm_trigger r dev ss cmd
  | Event.completion d status len r =>
    (0, complete_handler d r dev { addr := urb_of dev d, status := status, actual_length := len })

/-- The transfers in flight when the driver code for the event starts to run:
a completing URB is no longer in flight when its handler is called. -/
def Event.inflight_at_call (s : Sys) : Event → List Nat
  | Event.completion d _ _ _ => s.inflight.erase (urb_of s.dev d)
  | _ => s.inflight

def Sys.step (s : Sys) (e : Event) : Sys :=
  { dev := (e.run s.dev).2.1
    inflight := usb_core_calls (e.inflight_at_call s) (e.run s.dev).2.2
    ret := match e with
      | Event.completion _ _ _ _ => s.ret
      | _ => (e.run s.dev).1 }

def Sys.exec (s : Sys) (evs : List Event) : Sys :=
  evs.foldl Sys.step s

/-- A device on which nothing has been submitted yet. -/
def Sys.start (dev : jamvox_device) : Sys :=
  { dev := dev, inflight := [], ret := 0 }

/-- All kernel calls made by the driver over a run, in order. -/
def calls_of : jamvox_device → List Event → List Call
  | _, [] => []
  | dev, e :: es => (e.run dev).2.2 ++ calls_of (e.run dev).2.1 es

/-- The kernel calls made by the completion handler of direction `d` over a
run, in order. -/
def completion_calls (d : snd_pcm_stream) : jamvox_device → List Event → List Call
  | _, [] => []
  | dev, e :: es =>
    (match e with
      | Event.completion d1 _ _ _ => if d1 = d then (e.run dev).2.2 else []
      | _ => [])
    ++ completion_calls d (e.run dev).2.1 es

/-- The event is `jamvox_pcm_trigger(START)` on a substream of direction `d`. -/
def Event.is_start (d : snd_pcm_stream) : Event → Bool
  | Event.pcm_trigger ss cmd _ => decide (ss.stream = d) && decide (cmd = SNDRV_PCM_TRIGGER_START)
  | _ => false

/-- The event is `jamvox_pcm_trigger(STOP)` on a substream of direction `d`. -/
def Event.is_stop (d : snd_pcm_stream) : Event → Bool
  | Event.pcm_trigger ss cmd _ => decide (ss.stream = d) && decide (cmd = SNDRV_PCM_TRIGGER_STOP)
  | _ => false

/-- The event is not a `jamvox_pcm_trigger(START)` for a direction whose running
flag is set in `dev`. -/
def Event.start_when_idle (dev : jamvox_device) : Event → Bool
  | Event.pcm_trigger ss cmd _ =>
    !(decide (cmd = SNDRV_PCM_TRIGGER_START)) || decide (running dev ss.stream = 0)
  | _ => true

/-- Over the whole run every `jamvox_pcm_trigger(START)` is issued for a
direction whose running flag is `0` at that moment. -/
def starts_when_idle : jamvox_device → List Event → Bool
  | _, [] => true
  | dev, e :: es => e.start_when_idle dev && starts_when_idle (e.run dev).2.1 es

/-- Over the whole run the kernel never accepts a submission of a URB that is
still in flight. -/
def core_rejects_active : Sys → List Event → Bool
  | _, [] => true
  | s, e :: es =>
    rejects_active (e.inflight_at_call s) (e.run s.dev).2.2 && core_rejects_active (s.step e) es

def count_period_elapsed (calls : List Call) : Nat :=
  (calls.filter (fun c => match c with
    | Call.snd_pcm_period_elapsed _ => true
    | _ => false)).length

def count_kill (calls : List Call) : Nat :=
  (calls.filter (fun c => match c with
    | Call.usb_kill_urb _ => true
    | _ => false)).length

/-- The spec's `periods_crossed` (§4.2): how many multiples of `period_size`
lie in the byte range a completion moved the counter over, from `before` to
`before + n_bytes`. -/
def spec_periods_crossed (period_size before n_bytes : Nat) : Nat :=
  (before + n_bytes) / period_size - before / period_size

/-! ## Session construction and teardown -/

/-- A kernel allocation that has not been released. -/
inductive Res
  | kmem (p : Nat)
  | card (p : Nat)
  | pcm (p : Nat) (card : Nat)
  | urb (p : Nat)
  | coherent (p : Nat)
  deriving DecidableEq, Repr

/-- The allocator: the next fresh address and the live allocations. -/
structure Heap where
  next : Nat
  live : List Res
  deriving DecidableEq, Repr

def Heap.boot : Heap :=
  { next := 1, live := [] }

/-- An allocation that succeeds when `ok` holds and returns `NULL` otherwise. -/
def Heap.alloc (h : Heap) (ok : Bool) (mk : Nat → Res) : Nat × Heap :=
  if ok then (h.next, { next := h.next + 1, live := h.live ++ [mk h.next] })
  else (0, h)

def Heap.release (h : Heap) (r : Res) : Heap :=
  { h with live := h.live.erase r }

/-- `snd_card_free` releases the card and the PCM devices created on it. -/
def Heap.card_free (h : Heap) (c : Nat) : Heap :=
  { h with live := h.live.filter (fun r => match r with
      | Res.card p => decide (p ≠ c)
      | Res.pcm _ p => decide (p ≠ c)
      | _ => true) }

/-- The outcome of each step of `jamvox_probe` that can fail: whether a pointer
allocation succeeds, or the `int` a kernel function returns. -/
structure Faults where
  kzalloc_ok : Bool
  snd_card_new_ret : Int
  snd_pcm_new_ret : Int
  playback_urb_ok : Bool
  capture_urb_ok : Bool
  playback_buffer_ok : Bool
  capture_buffer_ok : Bool
  snd_card_register_ret : Int
  deriving DecidableEq, Repr

def Faults.none : Faults :=
  { kzalloc_ok := true
    snd_card_new_ret := 0
    snd_pcm_new_ret := 0
    playback_urb_ok := true
    capture_urb_ok := true
    playback_buffer_ok := true
    capture_buffer_ok := true
    snd_card_register_ret := 0 }

/-- The device state `kzalloc` returns: every field zero. -/
def jamvox_device.zero : jamvox_device :=
  { udev := 0, card := 0, pcm := 0, intf := 0
    playback_substream := 0, capture_substream := 0
    playback_urb := 0, capture_urb := 0
    playback_buffer := 0, capture_buffer := 0
    playback_dma := 0, capture_dma := 0
    playback_running := 0, capture_running := 0 }

/-- `jamvox_init_audio`. -/
def jamvox_init_audio (f : Faults) (h : Heap) (dev : jamvox_device) :
    Int × jamvox_device × Heap :=
  let ret := f.snd_pcm_new_ret
  if ret < 0 then (ret, dev, h)
  else
    let a := h.alloc true (fun p => Res.pcm p dev.card)
    let dev := { dev with pcm := a.1 }
    let pu := a.2.alloc f.playback_urb_ok Res.urb
    let dev := { dev with playback_urb := pu.1 }
    let cu := pu.2.alloc f.capture_urb_ok Res.urb
    let dev := { dev with capture_urb := cu.1 }
    if dev.playback_urb = 0 ∨ dev.capture_urb = 0 then (-ENOMEM, dev, cu.2)
    else
      let pb := cu.2.alloc f.playback_buffer_ok Res.coherent
      let dev := { dev with playback_buffer := pb.1, playback_dma := pb.1 }
      let cb := pb.2.alloc f.capture_buffer_ok Res.coherent
      let dev := { dev with capture_buffer := cb.1, capture_dma := cb.1 }
      if dev.playback_buffer = 0 ∨ dev.capture_buffer = 0 then (-ENOMEM, dev, cb.2)
      else (0, dev, cb.2)

/-- `jamvox_probe`: the status, the interface data (`none` unless
`usb_set_intfdata` was reached, else the address of the device structure and
its contents) and the heap afterwards. -/
def jamvox_probe (f : Faults) (h : Heap) (udev intf : Nat) :
    Int × Option (Nat × jamvox_device) × Heap :=
  let a := h.alloc f.kzalloc_ok Res.kmem
  if a.1 = 0 then (-ENOMEM, none, a.2)
  else
    let dev := { jamvox_device.zero with udev := udev, intf := intf }
    let ret := f.snd_card_new_ret
    if ret < 0 then (ret, none, a.2.release (Res.kmem a.1))
    else
      let c := a.2.alloc true Res.card
      let dev := { dev with card := c.1 }
      let r := jamvox_init_audio f c.2 dev
      if r.1 < 0 then (r.1, none, ((r.2.2).card_free r.2.1.card).release (Res.kmem a.1))
      else
        let ret := f.snd_card_register_ret
        if ret < 0 then (ret, none, ((r.2.2).card_free r.2.1.card).release (Res.kmem a.1))
        else (0, some (a.1, r.2.1), r.2.2)

/-- The effect of a releasing call on the heap. -/
def Heap.apply (h : Heap) : Call → Heap
  | Call.usb_free_urb u => h.release (Res.urb u)
  | Call.usb_free_coherent b => h.release (Res.coherent b)
  | Call.snd_card_free c => h.card_free c
  | Call.kfree p => h.release (Res.kmem p)
  | _ => h

/-- `jamvox_disconnect`: the kernel calls made, in order.  `intfdata` is what
`usb_get_intfdata` returns: `none` for `NULL`, else the address of the device
structure and its contents. -/
def jamvox_disconnect (intfdata : Option (Nat × jamvox_device)) : List Call :=
  match intfdata with
  | none => []
  | some (self, dev) =>
    (if dev.playback_urb ≠ 0 then
        [Call.usb_kill_urb dev.playback_urb, Call.usb_free_urb dev.playback_urb]
      else [])
    ++ (if dev.capture_urb ≠ 0 then
        [Call.usb_kill_urb dev.capture_urb, Call.usb_free_urb dev.capture_urb]
      else [])
    ++ (if dev.playback_buffer ≠ 0 then [Call.usb_free_coherent dev.playback_buffer] else [])
    ++ (if dev.capture_buffer ≠ 0 then [Call.usb_free_coherent dev.capture_buffer] else [])
    ++ [Call.snd_card_free dev.card, Call.kfree self]

/-- Both URBs and both DMA buffers of the session are allocated: the four
pointers are not `NULL`, the two URBs differ and the two buffers differ. -/
def fully_constructed (dev : jamvox_device) : Bool :=
  decide (dev.playback_urb ≠ 0) && decide (dev.capture_urb ≠ 0)
    && decide (dev.playback_buffer ≠ 0) && decide (dev.capture_buffer ≠ 0)
    && decide (dev.playback_urb ≠ dev.capture_urb)
    && decide (dev.playback_buffer ≠ dev.capture_buffer)

/-- The allocations of a fully constructed session whose device structure is
at `self`, in the order `jamvox_probe` makes them. -/
def session_resources (self : Nat) (dev : jamvox_device) : List Res :=
  [Res.kmem self, Res.card dev.card, Res.pcm dev.pcm dev.card, Res.urb dev.playback_urb,
    Res.urb dev.capture_urb, Res.coherent dev.playback_buffer, Res.coherent dev.capture_buffer]

/-- In `calls`, no `b` comes before the first `a`. -/
def only_after (a b : Call) : List Call → Bool
  | [] => true
  | c :: cs => if c = a then true else if c = b then false else only_after a b cs

/-- The driver's flags agree with the transfers in flight: the two URBs differ,
no URB is in flight twice, and the URB of a direction whose running flag is `0`
is not in flight. -/
def Sys.consistent (s : Sys) : Prop :=
  s.dev.playback_urb ≠ s.dev.capture_urb ∧ s.inflight.Nodup ∧
  (s.dev.playback_running = 0 → s.dev.playback_urb ∉ s.inflight) ∧
  (s.dev.capture_running = 0 → s.dev.capture_urb ∉ s.inflight)

/-! ## Concrete devices used in the examples -/

/-- The device a fault-free `jamvox_probe` leaves behind on a freshly booted
heap (for the USB device at `100` and the interface at `101`). -/
def fresh_device : jamvox_device :=
  match (jamvox_probe Faults.none Heap.boot 100 101).2.1 with
  | some (_, dev) => dev
  | none => jamvox_device.zero

def playback_ss : snd_pcm_substream :=
  { addr := 50, stream := SNDRV_PCM_STREAM_PLAYBACK }

def capture_ss : snd_pcm_substream :=
  { addr := 51, stream := SNDRV_PCM_STREAM_CAPTURE }

/-- The fresh device with both substreams opened and playback started. -/
def streaming_device : jamvox_device :=
  ((Sys.start fresh_device).exec
    [Event.pcm_open playback_ss, Event.pcm_open capture_ss, Event.pcm_prepare playback_ss,
      Event.pcm_trigger playback_ss SNDRV_PCM_TRIGGER_START 0]).dev

/-! ## Basic facts about the callbacks -/

theorem complete_handler_dev (d : snd_pcm_stream) (r : Int) (dev : jamvox_device) (u : urb) :
    (complete_handler d r dev u).1 = dev := by
  cases d <;> simp only [complete_handler, jamvox_playback_complete, jamvox_capture_complete]
    <;> split_ifs <;> rfl

theorem complete_handler_idle (d : snd_pcm_stream) (r : Int) (dev : jamvox_device) (u : urb)
    (h : running dev d = 0) : complete_handler d r dev u = (dev, []) := by
  cases d <;> simp only [running] at h
    <;> simp [complete_handler, jamvox_playback_complete, jamvox_capture_complete, h]

theorem running_trigger_stop (r : Int) (dev : jamvox_device) (ss : snd_pcm_substream) :
    running (jamvox_pcm_trigger r dev ss SNDRV_PCM_TRIGGER_STOP).2.1 ss.stream = 0 := by
  rcases ss with ⟨a, d⟩
  cases d <;> simp [jamvox_pcm_trigger, running, SNDRV_PCM_TRIGGER_STOP, SNDRV_PCM_TRIGGER_START]

theorem running_keeps_zero (d : snd_pcm_stream) (dev : jamvox_device) (e : Event)
    (h : running dev d = 0) (he : e.is_start d = false) :
    running (e.run dev).2.1 d = 0 := by
  cases e with
  | pcm_open ss =>
    cases d <;> simp only [running] at h ⊢ <;> simp only [Event.run, jamvox_pcm_open]
      <;> split_ifs <;> exact h
  | pcm_close ss =>
    cases d <;> simp only [running] at h ⊢ <;> simp only [Event.run, jamvox_pcm_close]
      <;> split_ifs <;> exact h
  | pcm_hw_params ss => simpa [Event.run, jamvox_pcm_hw_params] using h
  | pcm_hw_free ss => simpa [Event.run, jamvox_pcm_hw_free] using h
  | pcm_prepare ss => simpa [Event.run, jamvox_pcm_prepare] using h
  | pcm_trigger ss cmd r =>
    rcases ss with ⟨a, sd⟩
    simp only [Event.is_start, Bool.and_eq_false_imp, decide_eq_true_eq,
      decide_eq_false_iff_not] at he
    cases d <;> cases sd <;> simp only [running] at h ⊢
      <;> simp only [Event.run, jamvox_pcm_trigger] <;> split_ifs <;> simp_all
  | completion d1 status len r =>
    simp only [Event.run, complete_handler_dev]
    exact h

theorem completion_calls_idle (d : snd_pcm_stream) (evs : List Event) :
    ∀ dev : jamvox_device, running dev d = 0 → (∀ e ∈ evs, e.is_start d = false) →
      completion_calls d dev evs = [] := by
  induction evs with
  | nil => intro dev _ _; rfl
  | cons e es ih =>
    intro dev h hev
    have he : e.is_start d = false := hev e (List.mem_cons_self _ _)
    have hes : ∀ x ∈ es, x.is_start d = false := fun x hx => hev x (List.mem_cons_of_mem _ hx)
    have htail := ih (e.run dev).2.1 (running_keeps_zero d dev e h he) hes
    simp only [completion_calls, htail, List.append_nil]
    cases e with
    | completion d1 status len r =>
      by_cases hd : d1 = d
      · subst hd
        simp [Event.run, complete_handler_idle _ _ _ _ h]
      · simp [hd]
    | _ => rfl

/-! ## C1: a direction that is not running ignores completions -/

/-- C1: for either direction, a completion handler called while the running
flag of its direction is `0` returns the device unchanged and makes no kernel
call (no period-elapsed notification, no resubmission), whatever the URB
status; and after `jamvox_pcm_trigger(STOP)` on a substream, over every
sequence of events that holds no `jamvox_pcm_trigger(START)` for that
direction, the completion handler of the direction makes no kernel call. -/
theorem completion_silent_when_not_running :
    (∀ (d : snd_pcm_stream) (dev : jamvox_device) (r : Int) (u : urb),
        running dev d = 0 → complete_handler d r dev u = (dev, [])) ∧
    (∀ (dev : jamvox_device) (ss : snd_pcm_substream) (r : Int) (evs : List Event),
        (∀ e ∈ evs, e.is_start ss.stream = false) →
        completion_calls ss.stream
          (jamvox_pcm_trigger r dev ss SNDRV_PCM_TRIGGER_STOP).2.1 evs = []) :=
  ⟨fun d dev r u h => complete_handler_idle d r dev u h,
   fun dev ss r evs hev =>
    completion_calls_idle ss.stream evs _ (running_trigger_stop r dev ss) hev⟩

theorem completion_silent_when_not_running_witness :
    running fresh_device SNDRV_PCM_STREAM_CAPTURE = 0 ∧
    complete_handler SNDRV_PCM_STREAM_CAPTURE 0 fresh_device
        { addr := 5, status := 0, actual_length := 1024 } = (fresh_device, []) ∧
    completion_calls SNDRV_PCM_STREAM_PLAYBACK
        (jamvox_pcm_trigger 0 streaming_device playback_ss SNDRV_PCM_TRIGGER_STOP).2.1
        [Event.completion SNDRV_PCM_STREAM_PLAYBACK 0 1024 0,
          Event.pcm_trigger capture_ss SNDRV_PCM_TRIGGER_START 0,
          Event.completion SNDRV_PCM_STREAM_PLAYBACK (-2) 0 0,
          Event.completion SNDRV_PCM_STREAM_CAPTURE 0 4096 0,
          Event.completion SNDRV_PCM_STREAM_PLAYBACK 0 4096 0] = [] :=
  ⟨by decide,
   completion_silent_when_not_running.1 SNDRV_PCM_STREAM_CAPTURE fresh_device 0
     { addr := 5, status := 0, actual_length := 1024 } (by decide),
   completion_silent_when_not_running.2 streaming_device playback_ss 0
     [Event.completion SNDRV_PCM_STREAM_PLAYBACK 0 1024 0,
       Event.pcm_trigger capture_ss SNDRV_PCM_TRIGGER_START 0,
       Event.completion SNDRV_PCM_STREAM_PLAYBACK (-2) 0 0,
       Event.completion SNDRV_PCM_STREAM_CAPTURE 0 4096 0,
       Event.completion SNDRV_PCM_STREAM_PLAYBACK 0 4096 0] (by decide)⟩

/-! ## C3: a failed start -/

/-- C3 (as the code has it): when `usb_submit_urb` reports an error `r`,
`jamvox_pcm_trigger(START)` makes that one submit call and returns `r`; the
running flag of the direction, set before the call, is `1` on return, and the
flag of the other direction is unchanged. -/
theorem trigger_start_submit_error (r : Int) (dev : jamvox_device) (ss : snd_pcm_substream)
    (h : r ≠ 0) :
    (jamvox_pcm_trigger r dev ss SNDRV_PCM_TRIGGER_START).1 = r ∧
    running (jamvox_pcm_trigger r dev ss SNDRV_PCM_TRIGGER_START).2.1 ss.stream = 1 ∧
    running (jamvox_pcm_trigger r dev ss SNDRV_PCM_TRIGGER_START).2.1 (other ss.stream)
      = running dev (other ss.stream) ∧
    (jamvox_pcm_trigger r dev ss SNDRV_PCM_TRIGGER_START).2.2
      = [Call.usb_submit_urb (urb_of dev ss.stream) r] := by
  have _ := h
  rcases ss with ⟨a, d⟩
  cases d <;> simp [jamvox_pcm_trigger, running, other, urb_of]

theorem trigger_start_submit_error_witness :
    (-19 : Int) ≠ 0 ∧
    (jamvox_pcm_trigger (-19) fresh_device playback_ss SNDRV_PCM_TRIGGER_START).1 = -19 ∧
    running (jamvox_pcm_trigger (-19) fresh_device playback_ss SNDRV_PCM_TRIGGER_START).2.1
      SNDRV_PCM_STREAM_PLAYBACK = 1 :=
  ⟨by decide,
   (trigger_start_submit_error (-19) fresh_device playback_ss (by decide)).1,
   (trigger_start_submit_error (-19) fresh_device playback_ss (by decide)).2.1⟩

/-- C3 fails as stated: on the fresh device playback is not running; a start
whose submit call returns `-ENODEV` returns that error and leaves the playback
running flag at `1`, not as it was. -/
theorem trigger_start_submit_error_counterexample :
    running fresh_device SNDRV_PCM_STREAM_PLAYBACK = 0 ∧
    (jamvox_pcm_trigger (-19) fresh_device playback_ss SNDRV_PCM_TRIGGER_START).1 = -19 ∧
    running (jamvox_pcm_trigger (-19) fresh_device playback_ss SNDRV_PCM_TRIGGER_START).2.1
      SNDRV_PCM_STREAM_PLAYBACK ≠ running fresh_device SNDRV_PCM_STREAM_PLAYBACK := by
  decide

/-! ## C4: a failed transfer -/

/-- C4 (as the code has it): for either direction, a completion handler called
while the direction is running with a URB status other than `0` makes no
kernel call (no resubmission, no period-elapsed notification) and returns the
device unchanged: the running flag keeps its value.  Of all PCM callbacks and
completion events, only `jamvox_pcm_trigger(STOP)` on a substream of the
direction takes the running flag of a running direction to `0`. -/
theorem completion_failure_keeps_state (d : snd_pcm_stream) (r : Int) (dev : jamvox_device)
    (u : urb) (hrun : running dev d ≠ 0) (hst : u.status ≠ 0) :
    complete_handler d r dev u = (dev, []) ∧
    running (complete_handler d r dev u).1 d = running dev d ∧
    (∀ e : Event, running (e.run dev).2.1 d = 0 → e.is_stop d = true) := by
  refine ⟨?_, ?_, ?_⟩
  · cases d <;> simp only [running] at hrun
      <;> simp [complete_handler, jamvox_playback_complete, jamvox_capture_complete, hrun, hst]
  · rw [complete_handler_dev]
  · intro e he
    cases e with
    | pcm_open ss =>
      exfalso; apply hrun; rw [← he]
      cases d <;> simp only [running, Event.run, jamvox_pcm_open] <;> split_ifs <;> rfl
    | pcm_close ss =>
      exfalso; apply hrun; rw [← he]
      cases d <;> simp only [running, Event.run, jamvox_pcm_close] <;> split_ifs <;> rfl
    | pcm_hw_params ss => exact absurd he hrun
    | pcm_hw_free ss => exact absurd he hrun
    | pcm_prepare ss => exact absurd he hrun
    | pcm_trigger ss cmd r1 =>
      rcases ss with ⟨a, sd⟩
      cases d <;> cases sd <;> simp only [running] at hrun he ⊢
        <;> simp only [Event.run, jamvox_pcm_trigger] at he
        <;> simp only [Event.is_start, Event.is_stop]
        <;> split_ifs at he <;> simp_all
    | completion d1 status len r1 =>
      exfalso; apply hrun; rw [← he]
      simp only [Event.run, complete_handler_dev]

theorem completion_failure_keeps_state_witness :
    running streaming_device SNDRV_PCM_STREAM_PLAYBACK ≠ 0 ∧
    complete_handler SNDRV_PCM_STREAM_PLAYBACK 0 streaming_device
      { addr := 4, status := -71, actual_length := 0 } = (streaming_device, []) :=
  ⟨by decide,
   (completion_failure_keeps_state SNDRV_PCM_STREAM_PLAYBACK 0 streaming_device
      { addr := 4, status := -71, actual_length := 0 } (by decide) (by decide)).1⟩

/-- C4 fails as stated: playback is running, its URB completes with `-EPROTO`,
and afterwards the playback running flag is still `1`. -/
theorem completion_failure_counterexample :
    running streaming_device SNDRV_PCM_STREAM_PLAYBACK = 1 ∧
    running (complete_handler SNDRV_PCM_STREAM_PLAYBACK 0 streaming_device
      { addr := 4, status := -71, actual_length := 0 }).1 SNDRV_PCM_STREAM_PLAYBACK = 1 := by
  decide

/-! ## C5: the position query -/

/-- C5 (as the code has it): after every sequence of events on every device,
`jamvox_pcm_pointer` returns `0` for every substream, whatever the completions
reported; `0` lies in `[0, ring_size)` for every nonempty ring. -/
theorem pointer_always_zero (dev : jamvox_device) (evs : List Event)
    (ss : snd_pcm_substream) (ring_size : Nat) (h : 0 < ring_size) :
    jamvox_pcm_pointer ((Sys.start dev).exec evs).dev ss = 0 ∧
    jamvox_pcm_pointer ((Sys.start dev).exec evs).dev ss < ring_size :=
  ⟨rfl, h⟩

theorem pointer_always_zero_witness :
    0 < 4096 ∧
    jamvox_pcm_pointer ((Sys.start fresh_device).exec
      [Event.pcm_open playback_ss, Event.pcm_prepare playback_ss,
        Event.pcm_trigger playback_ss SNDRV_PCM_TRIGGER_START 0,
        Event.completion SNDRV_PCM_STREAM_PLAYBACK 0 1024 0,
        Event.completion SNDRV_PCM_STREAM_PLAYBACK 0 1024 0]).dev playback_ss = 0 :=
  ⟨by decide,
   (pointer_always_zero fresh_device
      [Event.pcm_open playback_ss, Event.pcm_prepare playback_ss,
        Event.pcm_trigger playback_ss SNDRV_PCM_TRIGGER_START 0,
        Event.completion SNDRV_PCM_STREAM_PLAYBACK 0 1024 0,
        Event.completion SNDRV_PCM_STREAM_PLAYBACK 0 1024 0] playback_ss 4096 (by decide)).1⟩

/-- C5 fails as stated: after open, prepare, start and one successful
completion of 1024 bytes (ring size 4096, so 1024 bytes modulo the ring is
1024) the position query returns `0`, not `1024`. -/
theorem pointer_counterexample :
    1024 % 4096 = 1024 ∧
    jamvox_pcm_pointer ((Sys.start fresh_device).exec
      [Event.pcm_open playback_ss, Event.pcm_prepare playback_ss,
        Event.pcm_trigger playback_ss SNDRV_PCM_TRIGGER_START 0,
        Event.completion SNDRV_PCM_STREAM_PLAYBACK 0 1024 0]).dev playback_ss ≠ 1024 := by
  decide

/-! ## C6: period-elapsed notifications -/

/-- C6 (as the code has it): for a running direction with a bound substream, a
successful completion makes exactly one period-elapsed notification, on the
bound substream, followed by one resubmission of the URB, whatever number of
bytes the completion reports. -/
theorem completion_success_notifies_once (d : snd_pcm_stream) (r : Int) (dev : jamvox_device)
    (u : urb) (hrun : running dev d ≠ 0) (hb : bound_substream dev d ≠ 0)
    (hst : u.status = 0) :
    (complete_handler d r dev u).2
      = [Call.snd_pcm_period_elapsed (bound_substream dev d), Call.usb_submit_urb u.addr r] ∧
    count_period_elapsed (complete_handler d r dev u).2 = 1 := by
  cases d <;> simp only [running, bound_substream] at hrun hb ⊢
    <;> simp [complete_handler, jamvox_playback_complete, jamvox_capture_complete, hrun, hb,
      hst, count_period_elapsed]

theorem completion_success_notifies_once_witness :
    running streaming_device SNDRV_PCM_STREAM_PLAYBACK ≠ 0 ∧
    bound_substream streaming_device SNDRV_PCM_STREAM_PLAYBACK ≠ 0 ∧
    count_period_elapsed (complete_handler SNDRV_PCM_STREAM_PLAYBACK 0 streaming_device
      { addr := 4, status := 0, actual_length := 3072 }).2 = 1 :=
  ⟨by decide, by decide,
   (completion_success_notifies_once SNDRV_PCM_STREAM_PLAYBACK 0 streaming_device
      { addr := 4, status := 0, actual_length := 3072 } (by decide) (by decide) rfl).2⟩

/-- C6 fails as stated: with a period of 1024 bytes and the counter at `0`,
playback running with a bound substream, a successful completion of 2048
bytes crosses two period boundaries and one of 100 bytes crosses none; the
handler makes one notification in both cases. -/
theorem completion_notifications_counterexample :
    running streaming_device SNDRV_PCM_STREAM_PLAYBACK = 1 ∧
    bound_substream streaming_device SNDRV_PCM_STREAM_PLAYBACK = 50 ∧
    spec_periods_crossed 1024 0 2048 = 2 ∧
    count_period_elapsed (complete_handler SNDRV_PCM_STREAM_PLAYBACK 0 streaming_device
      { addr := 4, status := 0, actual_length := 2048 }).2 = 1 ∧
    spec_periods_crossed 1024 0 100 = 0 ∧
    count_period_elapsed (complete_handler SNDRV_PCM_STREAM_PLAYBACK 0 streaming_device
      { addr := 4, status := 0, actual_length := 100 }).2 = 1 := by
  decide

/-! ## C7: open -/

/-- C7 (as the code has it): `jamvox_pcm_open` returns `0` on every device and
binds the given substream for its direction, whether or not one was bound
before; the binding of the other direction and both running flags are
unchanged, and the hardware descriptor is stored in the runtime. -/
theorem open_always_binds (dev : jamvox_device) (ss : snd_pcm_substream) :
    (jamvox_pcm_open dev ss).1 = 0 ∧
    bound_substream (jamvox_pcm_open dev ss).2.1 ss.stream = ss.addr ∧
    bound_substream (jamvox_pcm_open dev ss).2.1 (other ss.stream)
      = bound_substream dev (other ss.stream) ∧
    (∀ d, running (jamvox_pcm_open dev ss).2.1 d = running dev d) ∧
    (jamvox_pcm_open dev ss).2.2 = jamvox_pcm_hw := by
  rcases ss with ⟨a, d⟩
  cases d <;> simp [jamvox_pcm_open, bound_substream, other]
    <;> intro d1 <;> cases d1 <;> rfl

/-- C7 fails as stated: playback is bound to the substream at `50`; opening
the playback substream at `60` returns `0` and the binding is now `60`. -/
theorem open_bound_counterexample :
    bound_substream streaming_device SNDRV_PCM_STREAM_PLAYBACK = 50 ∧
    (jamvox_pcm_open streaming_device
      { addr := 60, stream := SNDRV_PCM_STREAM_PLAYBACK }).1 = 0 ∧
    bound_substream (jamvox_pcm_open streaming_device
      { addr := 60, stream := SNDRV_PCM_STREAM_PLAYBACK }).2.1 SNDRV_PCM_STREAM_PLAYBACK
      = 60 := by
  decide

/-! ## C8: close -/

/-- C8 (as the code has it): `jamvox_pcm_close` returns `0`, unbinds the
substream of its direction and makes no kernel call; both running flags and
the binding of the other direction are unchanged; and closing twice gives the
same result and state as closing once. -/
theorem close_unbinds_only (dev : jamvox_device) (ss : snd_pcm_substream) :
    (jamvox_pcm_close dev ss).1 = 0 ∧
    bound_substream (jamvox_pcm_close dev ss).2.1 ss.stream = 0 ∧
    bound_substream (jamvox_pcm_close dev ss).2.1 (other ss.stream)
      = bound_substream dev (other ss.stream) ∧
    (∀ d, running (jamvox_pcm_close dev ss).2.1 d = running dev d) ∧
    (jamvox_pcm_close dev ss).2.2 = [] ∧
    jamvox_pcm_close (jamvox_pcm_close dev ss).2.1 ss = jamvox_pcm_close dev ss := by
  rcases ss with ⟨a, d⟩
  cases d <;> simp [jamvox_pcm_close, bound_substream, other]
    <;> intro d1 <;> cases d1 <;> rfl

/-- C8 fails as stated: playback is running and bound; after closing the
playback substream the playback running flag is still `1` and no
`usb_kill_urb` call was made. -/
theorem close_running_counterexample :
    running streaming_device SNDRV_PCM_STREAM_PLAYBACK = 1 ∧
    running (jamvox_pcm_close streaming_device playback_ss).2.1 SNDRV_PCM_STREAM_PLAYBACK = 1 ∧
    count_kill (jamvox_pcm_close streaming_device playback_ss).2.2 = 0 := by
  decide

/-! ## C2: transfers in flight -/

theorem trigger_start_playback (r : Int) (dev : jamvox_device) (a : Nat) :
    jamvox_pcm_trigger r dev ⟨a, SNDRV_PCM_STREAM_PLAYBACK⟩ SNDRV_PCM_TRIGGER_START
      = (r, { dev with playback_running := 1 }, [Call.usb_submit_urb dev.playback_urb r]) := by
  simp [jamvox_pcm_trigger]

theorem trigger_start_capture (r : Int) (dev : jamvox_device) (a : Nat) :
    jamvox_pcm_trigger r dev ⟨a, SNDRV_PCM_STREAM_CAPTURE⟩ SNDRV_PCM_TRIGGER_START
      = (r, { dev with capture_running := 1 }, [Call.usb_submit_urb dev.capture_urb r]) := by
  simp [jamvox_pcm_trigger]

theorem trigger_stop_playback (r : Int) (dev : jamvox_device) (a : Nat) :
    jamvox_pcm_trigger r dev ⟨a, SNDRV_PCM_STREAM_PLAYBACK⟩ SNDRV_PCM_TRIGGER_STOP
      = (0, { dev with playback_running := 0 }, [Call.usb_kill_urb dev.playback_urb]) := by
  simp [jamvox_pcm_trigger, SNDRV_PCM_TRIGGER_STOP, SNDRV_PCM_TRIGGER_START]

theorem trigger_stop_capture (r : Int) (dev : jamvox_device) (a : Nat) :
    jamvox_pcm_trigger r dev ⟨a, SNDRV_PCM_STREAM_CAPTURE⟩ SNDRV_PCM_TRIGGER_STOP
      = (0, { dev with capture_running := 0 }, [Call.usb_kill_urb dev.capture_urb]) := by
  simp [jamvox_pcm_trigger, SNDRV_PCM_TRIGGER_STOP, SNDRV_PCM_TRIGGER_START]

theorem step_consistent (s : Sys) (e : Event) (h : s.consistent)
    (hd : e.start_when_idle s.dev = true) : (s.step e).consistent := by
  obtain ⟨hne, hnd, hp, hc⟩ := h
  rcases s with ⟨dev, fl, ret⟩
  simp only at hne hnd hp hc
  cases e with
  | pcm_open ss =>
    rcases ss with ⟨a, sd⟩
    cases sd <;>
      simpa [Sys.consistent, Sys.step, Event.run, Event.inflight_at_call, usb_core_calls,
        jamvox_pcm_open] using ⟨hne, hnd, hp, hc⟩
  | pcm_close ss =>
    rcases ss with ⟨a, sd⟩
    cases sd <;>
      simpa [Sys.consistent, Sys.step, Event.run, Event.inflight_at_call, usb_core_calls,
        jamvox_pcm_close] using ⟨hne, hnd, hp, hc⟩
  | pcm_hw_params ss =>
    simpa [Sys.consistent, Sys.step, Event.run, Event.inflight_at_call, usb_core_calls,
      jamvox_pcm_hw_params] using ⟨hne, hnd, hp, hc⟩
  | pcm_hw_free ss =>
    simpa [Sys.consistent, Sys.step, Event.run, Event.inflight_at_call, usb_core_calls,
      jamvox_pcm_hw_free] using ⟨hne, hnd, hp, hc⟩
  | pcm_prepare ss =>
    simpa [Sys.consistent, Sys.step, Event.run, Event.inflight_at_call, usb_core_calls,
      jamvox_pcm_prepare] using ⟨hne, hnd, hp, hc⟩
  | pcm_trigger ss cmd r =>
    rcases ss with ⟨a, sd⟩
    by_cases h1 : cmd = SNDRV_PCM_TRIGGER_START
    · subst h1
      simp only [Event.start_when_idle, decide_True, Bool.not_true, Bool.false_or,
        decide_eq_true_eq] at hd
      cases sd
      · simp only [running] at hd
        have hm := hp hd
        simp only [Sys.consistent, Sys.step, Event.run, Event.inflight_at_call, usb_core_calls,
          trigger_start_playback, List.foldl, usb_core]
        refine ⟨hne, ?_, fun h0 => absurd h0 one_ne_zero, ?_⟩
        · split_ifs
          · exact List.nodup_cons.mpr ⟨hm, hnd⟩
          · exact hnd
        · intro hc0
          split_ifs
          · intro hmem
            rcases List.mem_cons.mp hmem with heq | hmem
            · exact hne heq.symm
            · exact hc hc0 hmem
          · exact hc hc0
      · simp only [running] at hd
        have hm := hc hd
        simp only [Sys.consistent, Sys.step, Event.run, Event.inflight_at_call, usb_core_calls,
          trigger_start_capture, List.foldl, usb_core]
        refine ⟨hne, ?_, ?_, fun h0 => absurd h0 one_ne_zero⟩
        · split_ifs
          · exact List.nodup_cons.mpr ⟨hm, hnd⟩
          · exact hnd
        · intro hp0
          split_ifs
          · intro hmem
            rcases List.mem_cons.mp hmem with heq | hmem
            · exact hne heq
            · exact hp hp0 hmem
          · exact hp hp0
    · by_cases h2 : cmd = SNDRV_PCM_TRIGGER_STOP
      · subst h2
        cases sd
        · simp only [Sys.consistent, Sys.step, Event.run, Event.inflight_at_call, usb_core_calls,
            trigger_stop_playback, List.foldl, usb_core]
          refine ⟨hne, hnd.filter _, ?_, ?_⟩
          · intro _ hmem
            simpa using (List.mem_filter.mp hmem).2
          · intro hc0 hmem
            exact hc hc0 (List.mem_filter.mp hmem).1
        · simp only [Sys.consistent, Sys.step, Event.run, Event.inflight_at_call, usb_core_calls,
            trigger_stop_capture, List.foldl, usb_core]
          refine ⟨hne, hnd.filter _, ?_, ?_⟩
          · intro hp0 hmem
            exact hp hp0 (List.mem_filter.mp hmem).1
          · intro _ hmem
            simpa using (List.mem_filter.mp hmem).2
      · simpa [Sys.consistent, Sys.step, Event.run, Event.inflight_at_call, usb_core_calls,
          jamvox_pcm_trigger, h1, h2] using ⟨hne, hnd, hp, hc⟩
  | completion d status len r =>
    have herase : ∀ u v : Nat, v ∉ fl → v ∉ fl.erase u :=
      fun u v hv hmem => hv (List.mem_of_mem_erase hmem)
    cases d
    · simp only [Sys.consistent, Sys.step, Event.run, Event.inflight_at_call, usb_core_calls,
        complete_handler, jamvox_playback_complete, urb_of]
      by_cases hrun : dev.playback_running = 0
      · simp only [hrun, if_true, List.foldl]
        exact ⟨hne, hnd.erase _, fun _ => herase _ _ (hp hrun), fun h0 => herase _ _ (hc h0)⟩
      · by_cases hst : status = 0
        · simp only [hrun, hst, if_true, if_false]
          have key : ∀ l : List Nat,
              List.foldl usb_core l
                ((if dev.playback_substream ≠ 0 then
                    [Call.snd_pcm_period_elapsed dev.playback_substream]
                  else []) ++ [Call.usb_submit_urb dev.playback_urb r])
              = if r = 0 then dev.playback_urb :: l else l := by
            intro l
            split_ifs <;> simp_all [usb_core]
          rw [key]
          refine ⟨hne, ?_, fun h0 => False.elim h0, ?_⟩
          · split_ifs
            · exact List.nodup_cons.mpr ⟨fun hmem => (hnd.mem_erase_iff.mp hmem).1 rfl,
                hnd.erase _⟩
            · exact hnd.erase _
          · intro hc0
            split_ifs
            · intro hmem
              rcases List.mem_cons.mp hmem with heq | hmem
              · exact hne heq.symm
              · exact herase _ _ (hc hc0) hmem
            · exact herase _ _ (hc hc0)
        · simp only [hrun, hst, if_false, List.foldl]
          exact ⟨hne, hnd.erase _, fun h0 => False.elim h0, fun h0 => herase _ _ (hc h0)⟩
    · simp only [Sys.consistent, Sys.step, Event.run, Event.inflight_at_call, usb_core_calls,
        complete_handler, jamvox_capture_complete, urb_of]
      by_cases hrun : dev.capture_running = 0
      · simp only [hrun, if_true, List.foldl]
        exact ⟨hne, hnd.erase _, fun h0 => herase _ _ (hp h0), fun _ => herase _ _ (hc hrun)⟩
      · by_cases hst : status = 0
        · simp only [hrun, hst, if_true, if_false]
          have key : ∀ l : List Nat,
              List.foldl usb_core l
                ((if dev.capture_substream ≠ 0 then
                    [Call.snd_pcm_period_elapsed dev.capture_substream]
                  else []) ++ [Call.usb_submit_urb dev.capture_urb r])
              = if r = 0 then dev.capture_urb :: l else l := by
            intro l
            split_ifs <;> simp_all [usb_core]
          rw [key]
          refine ⟨hne, ?_, ?_, fun h0 => False.elim h0⟩
          · split_ifs
            · exact List.nodup_cons.mpr ⟨fun hmem => (hnd.mem_erase_iff.mp hmem).1 rfl,
                hnd.erase _⟩
            · exact hnd.erase _
          · intro hp0
            split_ifs
            · intro hmem
              rcases List.mem_cons.mp hmem with heq | hmem
              · exact hne heq
              · exact herase _ _ (hp hp0) hmem
            · exact herase _ _ (hp hp0)
        · simp only [hrun, hst, if_false, List.foldl]
          exact ⟨hne, hnd.erase _, fun h0 => herase _ _ (hp h0), fun h0 => False.elim h0⟩

theorem exec_consistent (evs : List Event) :
    ∀ s : Sys, s.consistent → starts_when_idle s.dev evs = true → (s.exec evs).consistent := by
  induction evs with
  | nil => intro s h _; exact h
  | cons e es ih =>
    intro s h hd
    simp only [starts_when_idle, Bool.and_eq_true] at hd
    exact ih (s.step e) (step_consistent s e h hd.1) hd.2

theorem starts_when_idle_take (evs : List Event) :
    ∀ (dev : jamvox_device) (n : Nat), starts_when_idle dev evs = true →
      starts_when_idle dev (evs.take n) = true := by
  induction evs with
  | nil => intro dev n _; simp [starts_when_idle]
  | cons e es ih =>
    intro dev n hd
    cases n with
    | zero => simp [starts_when_idle]
    | succ k =>
      simp only [starts_when_idle, Bool.and_eq_true, List.take_succ_cons] at hd ⊢
      exact ⟨hd.1, ih _ k hd.2⟩

/-- C2 (as the code has it): `jamvox_pcm_trigger(START)` does not look at the
running flag: on every device it sets the running flag of the direction to
`1`, makes one `usb_submit_urb` call on the URB of the direction and returns
what that call returns.  The bound is the caller's to keep: over every event
sequence in which each `jamvox_pcm_trigger(START)` is issued for a direction
whose running flag is `0` at that moment, starting from a device with two
different URBs and nothing submitted, each URB counts at most once among the
transfers in flight after every number of events, whatever the submit calls
return. -/
theorem inflight_at_most_one (dev : jamvox_device) (evs : List Event)
    (hne : dev.playback_urb ≠ dev.capture_urb)
    (hd : starts_when_idle dev evs = true) :
    (∀ (n u : Nat), ((Sys.start dev).exec (evs.take n)).inflight.count u ≤ 1) ∧
    (∀ (d0 : jamvox_device) (ss : snd_pcm_substream) (r : Int),
      (jamvox_pcm_trigger r d0 ss SNDRV_PCM_TRIGGER_START).1 = r ∧
      running (jamvox_pcm_trigger r d0 ss SNDRV_PCM_TRIGGER_START).2.1 ss.stream = 1 ∧
      (jamvox_pcm_trigger r d0 ss SNDRV_PCM_TRIGGER_START).2.2
        = [Call.usb_submit_urb (urb_of d0 ss.stream) r]) := by
  constructor
  · intro n u
    have h0 : (Sys.start dev).consistent :=
      ⟨hne, List.nodup_nil, fun _ => List.not_mem_nil _, fun _ => List.not_mem_nil _⟩
    have hn := exec_consistent (evs.take n) (Sys.start dev) h0
      (starts_when_idle_take evs dev n hd)
    exact List.nodup_iff_count_le_one.mp hn.2.1 u
  · intro d0 ss r
    rcases ss with ⟨a, d⟩
    cases d <;> simp [jamvox_pcm_trigger, urb_of, running]

theorem inflight_at_most_one_witness :
    fresh_device.playback_urb ≠ fresh_device.capture_urb ∧
    starts_when_idle fresh_device
      [Event.pcm_open playback_ss,
        Event.pcm_trigger playback_ss SNDRV_PCM_TRIGGER_START 0,
        Event.completion SNDRV_PCM_STREAM_PLAYBACK 0 4096 0,
        Event.pcm_trigger capture_ss SNDRV_PCM_TRIGGER_START 0,
        Event.pcm_trigger playback_ss SNDRV_PCM_TRIGGER_STOP 0,
        Event.pcm_trigger playback_ss SNDRV_PCM_TRIGGER_START 0,
        Event.completion SNDRV_PCM_STREAM_PLAYBACK (-71) 0 0] = true ∧
    ((Sys.start fresh_device).exec
      ([Event.pcm_open playback_ss,
        Event.pcm_trigger playback_ss SNDRV_PCM_TRIGGER_START 0,
        Event.completion SNDRV_PCM_STREAM_PLAYBACK 0 4096 0,
        Event.pcm_trigger capture_ss SNDRV_PCM_TRIGGER_START 0,
        Event.pcm_trigger playback_ss SNDRV_PCM_TRIGGER_STOP 0,
        Event.pcm_trigger playback_ss SNDRV_PCM_TRIGGER_START 0,
        Event.completion SNDRV_PCM_STREAM_PLAYBACK (-71) 0 0].take 4)).inflight.count 4 ≤ 1 :=
  ⟨by decide, by decide,
   (inflight_at_most_one fresh_device
      [Event.pcm_open playback_ss,
        Event.pcm_trigger playback_ss SNDRV_PCM_TRIGGER_START 0,
        Event.completion SNDRV_PCM_STREAM_PLAYBACK 0 4096 0,
        Event.pcm_trigger capture_ss SNDRV_PCM_TRIGGER_START 0,
        Event.pcm_trigger playback_ss SNDRV_PCM_TRIGGER_STOP 0,
        Event.pcm_trigger playback_ss SNDRV_PCM_TRIGGER_START 0,
        Event.completion SNDRV_PCM_STREAM_PLAYBACK (-71) 0 0] (by decide) (by decide)).1 4 4⟩

/-- C2 fails as stated: on the fresh device, playback is started (submission
accepted), its URB completes with `-EPROTO` (so it is not resubmitted and is
idle, while the running flag stays `1`), and playback is started again.  The
kernel never accepted a URB that was in flight; the second start is issued
while playback is running, returns `0`, and makes a second submission, which
is accepted. -/
theorem inflight_counterexample :
    core_rejects_active (Sys.start fresh_device)
      [Event.pcm_trigger playback_ss SNDRV_PCM_TRIGGER_START 0,
        Event.completion SNDRV_PCM_STREAM_PLAYBACK (-71) 0 0,
        Event.pcm_trigger playback_ss SNDRV_PCM_TRIGGER_START 0] = true ∧
    running ((Sys.start fresh_device).exec
      [Event.pcm_trigger playback_ss SNDRV_PCM_TRIGGER_START 0,
        Event.completion SNDRV_PCM_STREAM_PLAYBACK (-71) 0 0]).dev
      SNDRV_PCM_STREAM_PLAYBACK = 1 ∧
    ((Sys.start fresh_device).exec
      [Event.pcm_trigger playback_ss SNDRV_PCM_TRIGGER_START 0,
        Event.completion SNDRV_PCM_STREAM_PLAYBACK (-71) 0 0,
        Event.pcm_trigger playback_ss SNDRV_PCM_TRIGGER_START 0]).ret = 0 ∧
    calls_of fresh_device
      [Event.pcm_trigger playback_ss SNDRV_PCM_TRIGGER_START 0,
        Event.completion SNDRV_PCM_STREAM_PLAYBACK (-71) 0 0,
        Event.pcm_trigger playback_ss SNDRV_PCM_TRIGGER_START 0]
      = [Call.usb_submit_urb 4 0, Call.usb_submit_urb 4 0] ∧
    ((Sys.start fresh_device).exec
      [Event.pcm_trigger playback_ss SNDRV_PCM_TRIGGER_START 0,
        Event.completion SNDRV_PCM_STREAM_PLAYBACK (-71) 0 0,
        Event.pcm_trigger playback_ss SNDRV_PCM_TRIGGER_START 0]).inflight = [4] := by
  decide

/-! ## C9: failures during session construction -/

/-- C9 fails on the code.  On a freshly booted heap: when the capture URB
allocation fails, `jamvox_probe` returns `-ENOMEM` and the playback URB (at
`4`) stays allocated; when the capture buffer allocation fails, both URBs and
the playback buffer stay allocated; when `snd_card_register` fails, both URBs
and both buffers stay allocated.  Failures of the three earliest steps
(`kzalloc`, `snd_card_new`, `snd_pcm_new`) leave nothing allocated. -/
theorem probe_failure_leaks :
    jamvox_probe { Faults.none with capture_urb_ok := false } Heap.boot 100 101
      = (-ENOMEM, none, { next := 5, live := [Res.urb 4] }) ∧
    jamvox_probe { Faults.none with capture_buffer_ok := false } Heap.boot 100 101
      = (-ENOMEM, none, { next := 7, live := [Res.urb 4, Res.urb 5, Res.coherent 6] }) ∧
    jamvox_probe { Faults.none with snd_card_register_ret := -ENOMEM } Heap.boot 100 101
      = (-ENOMEM, none,
          { next := 8, live := [Res.urb 4, Res.urb 5, Res.coherent 6, Res.coherent 7] }) ∧
    (jamvox_probe { Faults.none with kzalloc_ok := false } Heap.boot 100 101).2.2.live = [] ∧
    (jamvox_probe { Faults.none with snd_card_new_ret := -ENOMEM } Heap.boot 100 101).2.2.live
      = [] ∧
    (jamvox_probe { Faults.none with snd_pcm_new_ret := -ENOMEM } Heap.boot 100 101).2.2.live
      = [] := by
  decide

/-! ## C10: teardown order -/

theorem probe_session_shape (f : Faults) (n udev intf self : Nat) (dev : jamvox_device)
    (h : Heap) (hn : n ≠ 0)
    (hp : jamvox_probe f { next := n, live := [] } udev intf = (0, some (self, dev), h)) :
    self = n ∧
    dev = { jamvox_device.zero with
      udev := udev, intf := intf, card := n + 1, pcm := n + 2, playback_urb := n + 3,
      capture_urb := n + 4, playback_buffer := n + 5, capture_buffer := n + 6,
      playback_dma := n + 5, capture_dma := n + 6 } ∧
    h = { next := n + 7, live := session_resources self dev } := by
  rcases f with ⟨k, cn, pn, pu, cu, pb, cb, rg⟩
  cases k
  · simp [jamvox_probe, Heap.alloc] at hp
  by_cases h1 : cn < 0
  · simp [jamvox_probe, Heap.alloc, h1, hn] at hp
  by_cases h2 : pn < 0
  · simp [jamvox_probe, jamvox_init_audio, Heap.alloc, h1, h2, hn] at hp
  cases pu
  · simp [jamvox_probe, jamvox_init_audio, Heap.alloc, h1, h2, hn, ENOMEM] at hp
  cases cu
  · simp [jamvox_probe, jamvox_init_audio, Heap.alloc, h1, h2, hn, ENOMEM] at hp
  cases pb
  · simp [jamvox_probe, jamvox_init_audio, Heap.alloc, h1, h2, hn, ENOMEM] at hp
  cases cb
  · simp [jamvox_probe, jamvox_init_audio, Heap.alloc, h1, h2, hn, ENOMEM] at hp
  by_cases h3 : rg < 0
  · simp [jamvox_probe, jamvox_init_audio, Heap.alloc, h1, h2, h3, hn] at hp
  simp [jamvox_probe, jamvox_init_audio, Heap.alloc, h1, h2, h3, hn,
    jamvox_device.zero] at hp
  obtain ⟨⟨rfl, rfl⟩, rfl⟩ := hp
  simp [session_resources, jamvox_device.zero, Nat.add_assoc]

theorem run_keeps_resources (e : Event) (dev : jamvox_device) :
    (e.run dev).2.1.card = dev.card ∧ (e.run dev).2.1.pcm = dev.pcm ∧
    (e.run dev).2.1.playback_urb = dev.playback_urb ∧
    (e.run dev).2.1.capture_urb = dev.capture_urb ∧
    (e.run dev).2.1.playback_buffer = dev.playback_buffer ∧
    (e.run dev).2.1.capture_buffer = dev.capture_buffer := by
  cases e with
  | pcm_open ss => simp only [Event.run, jamvox_pcm_open]; split_ifs <;> simp
  | pcm_close ss => simp only [Event.run, jamvox_pcm_close]; split_ifs <;> simp
  | pcm_hw_params ss => simp [Event.run, jamvox_pcm_hw_params]
  | pcm_hw_free ss => simp [Event.run, jamvox_pcm_hw_free]
  | pcm_prepare ss => simp [Event.run, jamvox_pcm_prepare]
  | pcm_trigger ss cmd r => simp only [Event.run, jamvox_pcm_trigger]; split_ifs <;> simp
  | completion d status len r => simp [Event.run, complete_handler_dev]

/-- C10: on every fully constructed session (both URBs and both DMA buffers
allocated), whatever its running flags and bound substreams,
`jamvox_disconnect` frees each URB and each DMA buffer exactly once, frees no
URB before it killed that URB, frees no DMA buffer before it killed the URB of
that direction, and calls `snd_card_free` once, after the four frees; of the
allocations of the session nothing is left afterwards. -/
theorem disconnect_order (self : Nat) (dev : jamvox_device)
    (hfc : fully_constructed dev = true) :
    (jamvox_disconnect (some (self, dev))).count (Call.usb_free_urb dev.playback_urb) = 1 ∧
    (jamvox_disconnect (some (self, dev))).count (Call.usb_free_urb dev.capture_urb) = 1 ∧
    (jamvox_disconnect (some (self, dev))).count
      (Call.usb_free_coherent dev.playback_buffer) = 1 ∧
    (jamvox_disconnect (some (self, dev))).count
      (Call.usb_free_coherent dev.capture_buffer) = 1 ∧
    only_after (Call.usb_kill_urb dev.playback_urb) (Call.usb_free_urb dev.playback_urb)
      (jamvox_disconnect (some (self, dev))) = true ∧
    only_after (Call.usb_kill_urb dev.capture_urb) (Call.usb_free_urb dev.capture_urb)
      (jamvox_disconnect (some (self, dev))) = true ∧
    only_after (Call.usb_kill_urb dev.playback_urb) (Call.usb_free_coherent dev.playback_buffer)
      (jamvox_disconnect (some (self, dev))) = true ∧
    only_after (Call.usb_kill_urb dev.capture_urb) (Call.usb_free_coherent dev.capture_buffer)
      (jamvox_disconnect (some (self, dev))) = true ∧
    (jamvox_disconnect (some (self, dev))).count (Call.snd_card_free dev.card) = 1 ∧
    only_after (Call.usb_free_urb dev.playback_urb) (Call.snd_card_free dev.card)
      (jamvox_disconnect (some (self, dev))) = true ∧
    only_after (Call.usb_free_urb dev.capture_urb) (Call.snd_card_free dev.card)
      (jamvox_disconnect (some (self, dev))) = true ∧
    only_after (Call.usb_free_coherent dev.playback_buffer) (Call.snd_card_free dev.card)
      (jamvox_disconnect (some (self, dev))) = true ∧
    only_after (Call.usb_free_coherent dev.capture_buffer) (Call.snd_card_free dev.card)
      (jamvox_disconnect (some (self, dev))) = true ∧
    (∀ next : Nat, ((jamvox_disconnect (some (self, dev))).foldl Heap.apply
      { next := next, live := session_resources self dev }).live = []) := by
  simp only [fully_constructed, Bool.and_eq_true, decide_eq_true_eq] at hfc
  obtain ⟨⟨⟨⟨⟨h1, h2⟩, h3⟩, h4⟩, h5⟩, h6⟩ := hfc
  have h5s := Ne.symm h5
  have h6s := Ne.symm h6
  have hd : jamvox_disconnect (some (self, dev))
      = [Call.usb_kill_urb dev.playback_urb, Call.usb_free_urb dev.playback_urb,
          Call.usb_kill_urb dev.capture_urb, Call.usb_free_urb dev.capture_urb,
          Call.usb_free_coherent dev.playback_buffer, Call.usb_free_coherent dev.capture_buffer,
          Call.snd_card_free dev.card, Call.kfree self] := by
    simp [jamvox_disconnect, h1, h2, h3, h4]
  rw [hd]
  refine ⟨?_, ?_, ?_, ?_, ?_, ?_, ?_, ?_, ?_, ?_, ?_, ?_, ?_, ?_⟩
  all_goals try simp [List.count_cons, only_after, h5, h6, h5s, h6s]
  intro next
  simp [Heap.apply, Heap.release, Heap.card_free, session_resources, List.erase_cons, h5s, h6s]

theorem exec_keeps_resources (evs : List Event) :
    ∀ s : Sys,
      (s.exec evs).dev.card = s.dev.card ∧ (s.exec evs).dev.pcm = s.dev.pcm ∧
      (s.exec evs).dev.playback_urb = s.dev.playback_urb ∧
      (s.exec evs).dev.capture_urb = s.dev.capture_urb ∧
      (s.exec evs).dev.playback_buffer = s.dev.playback_buffer ∧
      (s.exec evs).dev.capture_buffer = s.dev.capture_buffer := by
  induction evs with
  | nil => intro s; exact ⟨rfl, rfl, rfl, rfl, rfl, rfl⟩
  | cons e es ih =>
    intro s
    have h1 := ih (s.step e)
    have h2 := run_keeps_resources e s.dev
    exact ⟨h1.1.trans h2.1, h1.2.1.trans h2.2.1, h1.2.2.1.trans h2.2.2.1,
      h1.2.2.2.1.trans h2.2.2.2.1, h1.2.2.2.2.1.trans h2.2.2.2.2.1,
      h1.2.2.2.2.2.trans h2.2.2.2.2.2⟩

/-- Every session that a successful `jamvox_probe` built, in whatever state its
streams are afterwards, is fully constructed and owns exactly the allocations
`jamvox_probe` made. -/
theorem probe_session_fully_constructed (f : Faults) (n udev intf self : Nat)
    (dev : jamvox_device) (h : Heap) (evs : List Event) (hn : n ≠ 0)
    (hp : jamvox_probe f { next := n, live := [] } udev intf = (0, some (self, dev), h)) :
    fully_constructed ((Sys.start dev).exec evs).dev = true ∧
    h.live = session_resources self ((Sys.start dev).exec evs).dev := by
  obtain ⟨hs, hdev, hh⟩ := probe_session_shape f n udev intf self dev h hn hp
  obtain ⟨k1, k2, k3, k4, k5, k6⟩ := exec_keeps_resources evs (Sys.start dev)
  have f3 : (Sys.start dev).dev.playback_urb = n + 3 := by rw [hdev]; rfl
  have f4 : (Sys.start dev).dev.capture_urb = n + 4 := by rw [hdev]; rfl
  have f5 : (Sys.start dev).dev.playback_buffer = n + 5 := by rw [hdev]; rfl
  have f6 : (Sys.start dev).dev.capture_buffer = n + 6 := by rw [hdev]; rfl
  constructor
  · simp [fully_constructed, k3, k4, k5, k6, f3, f4, f5, f6]
  · rw [hh]
    simp only [session_resources, k1, k2, k3, k4, k5, k6]
    rfl

/-- C10 on a streaming session: the device has both substreams bound and
playback running with a transfer submitted. -/
theorem disconnect_order_witness :
    fully_constructed streaming_device = true ∧
    running streaming_device SNDRV_PCM_STREAM_PLAYBACK = 1 ∧
    jamvox_disconnect (some (1, streaming_device))
      = [Call.usb_kill_urb 4, Call.usb_free_urb 4, Call.usb_kill_urb 5, Call.usb_free_urb 5,
          Call.usb_free_coherent 6, Call.usb_free_coherent 7, Call.snd_card_free 2,
          Call.kfree 1] ∧
    only_after (Call.usb_kill_urb streaming_device.playback_urb)
      (Call.usb_free_coherent streaming_device.playback_buffer)
      (jamvox_disconnect (some (1, streaming_device))) = true :=
  ⟨by decide, by decide, by decide,
   (disconnect_order 1 streaming_device (by decide)).2.2.2.2.2.2.1⟩

end Jamvox
